import Mathlib

/-!
# Railway_Management: record validation, HTTP handlers and page statistics

A shallow embedding of `src/server.js` (two Mongoose schemas, the health probe, the
event and planning routes, the error middleware) and of the statistics code of
`src/public/script.js`.

The store is a pair of document lists; every handler is a function from the
request, the store and the per-request runtime facts (clock, generated id, store
failure) to a response and the next store.  The schema declarations are data,
read by an interpreter of the library's casting and validation rules: a supplied
value is cast by the type of its path, an absent one takes the declared default,
`required` runs before the other validators, a path reports one error, and
validation precedes the insert.  The JavaScript conversions that have no
counterpart here (string to number, number to string, date parsing, ObjectId
parsing) are gathered in `Builtins`, and every general theorem holds for all of
them.

Conventions: a JSON number is a rational, an infinity or NaN (rounding to a
double is not modelled); a string is a list of Unicode characters; the order of
the entries of `details` is the order of the schema paths and no theorem relies
on it; keys of a body that the schema does not declare are dropped, as strict
mode does.
-/

namespace Railway

/-! ## JSON values and numbers -/

/-- A JavaScript number: a finite value, one of the infinities, or NaN. -/
inductive JsNumber where
  | finite (q : ℚ)
  | posInf
  | negInf
  | nan
  deriving DecidableEq

/-- A parsed JSON value, as `express.json()` hands it to a handler. -/
inductive Json where
  | null
  | bool (b : Bool)
  | num (x : JsNumber)
  | str (s : String)
  | arr (items : List Json)
  | obj (members : List (String × Json))

/-- A request body: the members of the parsed JSON object. -/
abbrev Body := List (String × Json)

/-- The identifier of a stored document (a BSON ObjectId, coded as a number). -/
abbrev DocId := Nat

/-- What the library makes of a client-supplied `_id`. -/
inductive IdOutcome where
  | castError
  | rejected (text : String)
  | id (i : DocId)

/-- JavaScript and BSON conversions used by the casts, left uninterpreted. -/
structure Builtins where
  /-- The value of `Number(s)` for a non-empty string. -/
  toNumber : String → JsNumber
  /-- The value of `x.toString()` for a number. -/
  numberToString : JsNumber → String
  /-- The instant `castDate` derives from a non-empty string or an array (`none`: Invalid Date). -/
  parseDate : Json → Option Int
  /-- The ObjectId cast of a non-null `_id` supplied in a body. -/
  castObjectId : Json → IdOutcome
  /-- The ObjectId cast of the `:id` route parameter (`none`: CastError). -/
  paramObjectId : String → Option DocId
  /-- The time value of `new Date(v)` in the browser (`none`: NaN). -/
  clientDate : Option Json → Option Int

/-! ## Schema types, casting -/

/-- A cast value held by a document path. -/
inductive Value where
  | null
  | str (s : String)
  | num (x : JsNumber)
  | date (ms : Int)
  deriving DecidableEq

/-- The schema types the two schemas use. -/
inductive SchemaType where
  | String
  | Number
  | Date
  deriving DecidableEq

/-- Result of casting a supplied value: a cast value or a CastError. -/
inductive Cast where
  | ok (v : Value)
  | error
  deriving DecidableEq

/-- String cast of the library (`castString`): null stays null; a value with a
truthy string `_id` is read as that `_id` ("handle documents being passed"); a
value whose `toString` is not the default one of objects and that is not an
array is read through `toString()`, which covers strings, numbers and booleans;
anything else, so every array and every other plain object, is a CastError. -/
def castString (B : Builtins) : Json → Cast
  | .null => .ok .null
  | .str s => .ok (.str s)
  | .num x => .ok (.str (B.numberToString x))
  | .bool b => .ok (.str (if b then "true" else "false"))
  | .arr _ => .error
  | .obj members =>
    match members.lookup "_id" with
    | some (.str s) => if s = "" then .error else .ok (.str s)
    | _ => .error

/-- The number cast proper of the library (`castNumber`): null and the empty
string give null, strings and booleans go through `Number()`, NaN, arrays and
plain objects are errors. -/
def castNumberCore (B : Builtins) : Json → Cast
  | .null => .ok .null
  | .str s =>
    if s = "" then .ok .null
    else match B.toNumber s with
      | .nan => .error
      | x => .ok (.num x)
  | .bool b => .ok (.num (.finite (if b then 1 else 0)))
  | .num .nan => .error
  | .num x => .ok (.num x)
  | .arr _ => .error
  | .obj _ => .error

/-- Number cast (`SchemaNumber.cast`): a value with an `_id` member is replaced by
that member before the cast proper. -/
def castNumber (B : Builtins) : Json → Cast
  | .obj members =>
    match members.lookup "_id" with
    | some v => castNumberCore B v
    | none => .error
  | v => castNumberCore B v

/-- The largest time value of a JavaScript Date, in milliseconds. -/
def maxTime : ℚ := 8640000000000000

/-- The Date made by `new Date(x)` for a number: invalid outside the time range,
truncated toward zero inside it. -/
def dateOfNumber : JsNumber → Option Int
  | .finite q => if |q| ≤ maxTime then some (q.num.tdiv q.den) else none
  | _ => none

/-- Date cast: null and the empty string give null, booleans and objects are errors,
numbers go through `new Date(x)`, other strings and arrays through date parsing. -/
def castDate (B : Builtins) : Json → Cast
  | .null => .ok .null
  | .str s =>
    if s = "" then .ok .null
    else match B.parseDate (.str s) with
      | some ms => .ok (.date ms)
      | none => .error
  | .bool _ => .error
  | .num x =>
    match dateOfNumber x with
    | some ms => .ok (.date ms)
    | none => .error
  | .arr items =>
    match B.parseDate (.arr items) with
    | some ms => .ok (.date ms)
    | none => .error
  | .obj _ => .error

/-- Cast of a supplied value by schema type. -/
def cast (B : Builtins) : SchemaType → Json → Cast
  | .String => castString B
  | .Number => castNumber B
  | .Date => castDate B

/-! ## Schemas and validation -/

/-- A declared default: a literal, or the clock (`Date.now`). -/
inductive Default where
  | value (v : Value)
  | now

/-- One path of a schema with the options the source declares for it. -/
structure PathSpec where
  path : String
  type : SchemaType
  required : Option String
  match_ : Option ((String → Bool) × String)
  enum : Option (List String)
  min : Option (ℚ × String)
  default : Option Default

/-- A schema: its declared paths, in declaration order (`_id` is implicit). -/
abbrev Schema := List PathSpec

/-- A path without validators or default (`zone: String`). -/
def plain (path : String) (type : SchemaType) : PathSpec :=
  ⟨path, type, none, none, none, none, none⟩

/-- Consume exactly `n` decimal digits (`\d{n}`). -/
def digits : Nat → List Char → Option (List Char)
  | 0, cs => some cs
  | _ + 1, [] => none
  | n + 1, c :: cs => if c.isDigit then digits n cs else none

/-- Consume one given character. -/
def literal (c : Char) : List Char → Option (List Char)
  | [] => none
  | d :: cs => if d = c then some cs else none

/-- The regular expression `/^\d{4}-\d{2}-\d{2}$/`, anchored at both ends. -/
def dateKeyPattern (s : String) : Bool :=
  match ((((digits 4 s.data).bind (literal '-')).bind (digits 2)).bind (literal '-')).bind
      (digits 2) with
  | some [] => true
  | _ => false

/-- The schema of `Event` (server.js, `eventSchema`). -/
def eventSchema : Schema :=
  [ ⟨"dateKey", .String, some "Date key is required",
      some (dateKeyPattern, "Date key must be YYYY-MM-DD"), none, none, none⟩,
    ⟨"type", .String, some "Event type is required", none,
      some ["Festival", "Sport", "Political", "Religious", "Other"], none, none⟩,
    ⟨"station", .String, some "Station name is required", none, none, none, none⟩,
    plain "zone" .String,
    plain "division" .String,
    ⟨"crowd", .Number, some "Crowd estimate is required", none, none,
      some (0, "Crowd cannot be negative"), none⟩,
    ⟨"level", .String, some "Crowd level is required", none,
      some ["L-1", "L-2", "L-3"], none, none⟩,
    ⟨"createdAt", .Date, none, none, none, none, some .now⟩ ]

/-- The schema of `Planning` (server.js, `planningSchema`). -/
def planningSchema : Schema :=
  [ ⟨"dateKey", .String, some "Date key is required", none, none, none, none⟩,
    ⟨"stationName", .String, some "Station name is required", none, none, none, none⟩,
    ⟨"expectedCrowd", .Number, some "Expected crowd is required", none, none,
      some (0, "Expected crowd cannot be negative"), none⟩,
    ⟨"grpStaff", .Number, none, none, none,
      some (0, "Staff count cannot be negative"), some (.value (.num (.finite 0)))⟩,
    ⟨"rpfStaff", .Number, none, none, none,
      some (0, "Staff count cannot be negative"), some (.value (.num (.finite 0)))⟩,
    ⟨"commercialStaff", .Number, none, none, none,
      some (0, "Staff count cannot be negative"), some (.value (.num (.finite 0)))⟩,
    plain "trainNumber" .String,
    plain "trainType" .String,
    plain "trainRoute" .String,
    ⟨"createdAt", .Date, none, none, none, none, some .now⟩ ]

/-- The version key: the Number path `__v` that `mongoose.model` adds to a schema. -/
def versionKey : PathSpec := plain "__v" .Number

/-- The paths of a compiled model (`mongoose.model(name, schema)`): the declared
paths and the version key. -/
def model (schema : Schema) : Schema := schema ++ [versionKey]

/-- One entry of a validation error: a declared message, the library's enum
message for a value and path, or a CastError on a path. -/
inductive Detail where
  | message (text : String)
  | notInEnum (value path : String)
  | castFailed (path : String)
  deriving DecidableEq

/-- The state of a path after `new Model(body)`: a CastError, or the value it
holds (`none`: undefined). -/
inductive Held where
  | castError
  | value (v : Option Value)
  deriving DecidableEq

/-- The value a path holds after construction: an absent key takes the declared
default, a supplied key is cast (a supplied null stays null). -/
def construct (B : Builtins) (now : Int) (p : PathSpec) (body : Body) : Held :=
  match body.lookup p.path with
  | none =>
    match p.default with
    | none => .value none
    | some (.value v) => .value (some v)
    | some .now => .value (some (.date now))
  | some j =>
    match cast B p.type j with
    | .ok v => .value (some v)
    | .error => .castError

/-- The `required` validator: fails on undefined, null and the empty string. -/
def missing : Option Value → Bool
  | none => true
  | some .null => true
  | some (.str s) => s = ""
  | some _ => false

/-- The comparison `x >= m` of the `min` validator. -/
def JsNumber.ge (x : JsNumber) (m : ℚ) : Bool :=
  match x with
  | .finite q => m ≤ q
  | .posInf => true
  | .negInf => false
  | .nan => false

/-- The `match` validator: null and the empty string pass. -/
def matchFails (re : String → Bool) : Value → Bool
  | .str s => s ≠ "" && !re s
  | _ => false

/-- The `enum` validator: a string outside the list fails. -/
def enumFails (values : List String) : Value → Option String
  | .str s => if s ∈ values then none else some s
  | _ => none

/-- The `min` validator: null passes, a number below the bound fails. -/
def minFails (m : ℚ) : Value → Bool
  | .num x => !x.ge m
  | _ => false

/-- The error of the `match` option of a path, if declared and failing. -/
def matchError (p : PathSpec) (v : Value) : Option Detail :=
  match p.match_ with
  | some (re, msg) => if matchFails re v then some (.message msg) else none
  | none => none

/-- The error of the `enum` option of a path, if declared and failing. -/
def enumError (p : PathSpec) (v : Value) : Option Detail :=
  match p.enum with
  | some values =>
    match enumFails values v with
    | some s => some (.notInEnum s p.path)
    | none => none
  | none => none

/-- The error of the `min` option of a path, if declared and failing. -/
def minError (p : PathSpec) (v : Value) : Option Detail :=
  match p.min with
  | some (m, msg) => if minFails m v then some (.message msg) else none
  | none => none

/-- The validators of a path after `required`; the first failure is the path's
error (no path of the two schemas declares more than one of them). -/
def checkValue (p : PathSpec) (v : Value) : Option Detail :=
  match matchError p v with
  | some e => some e
  | none =>
    match enumError p v with
    | some e => some e
    | none => minError p v

/-- The error of one path, if any: a CastError, else `required`, else the other
validators (skipped on an undefined value). -/
def pathError (p : PathSpec) : Held → Option Detail
  | .castError => some (.castFailed p.path)
  | .value v =>
    match p.required with
    | some msg =>
      if missing v then some (.message msg)
      else match v with
        | some w => checkValue p w
        | none => none
    | none =>
      match v with
      | some w => checkValue p w
      | none => none

/-- The errors of a body against a schema, one per failing path. -/
def validate (B : Builtins) (now : Int) (schema : Schema) (body : Body) : List Detail :=
  schema.filterMap (fun p => pathError p (construct B now p body))

/-! ## Documents, store, responses -/

/-- A stored document: its `_id` and the values of the schema paths it defines. -/
structure Doc where
  _id : DocId
  fields : List (String × Value)
  deriving DecidableEq

/-- The value of a path of a document. -/
def Doc.get (d : Doc) (path : String) : Option Value := d.fields.lookup path

/-- The two collections. -/
structure Store where
  events : List Doc
  planning : List Doc
  deriving DecidableEq

/-- Facts of one request that the handler does not control. -/
structure Runtime where
  /-- The value of `Date.now()`. -/
  now : Int
  /-- The ObjectId generated for a new document. -/
  objectId : DocId
  /-- The message of the store or connectivity error that the store operation of
  this request meets, if it meets one. -/
  storeError : Option String

/-- The process environment read by the server. -/
structure ProcessEnv where
  NODE_ENV : Option String

/-- The `message` of a thrown error that is not a ValidationError. -/
inductive ErrorMessage where
  | driver (text : String)
  | duplicateKey (id : DocId)
  | invalidId (text : String)
  | castObjectId (value : String)
  deriving DecidableEq

/-- How `save()` ends. -/
inductive SaveResult where
  | saved (d : Doc)
  | validationError (details : List Detail)
  | failed (m : ErrorMessage)

/-- The paths a new document defines, with their values. -/
def fieldsOf (B : Builtins) (now : Int) (schema : Schema) (body : Body) :
    List (String × Value) :=
  schema.filterMap (fun p =>
    match construct B now p body with
    | .value (some v) => some (p.path, v)
    | _ => none)

/-- The values a new document is inserted with: those of the declared paths, and
the version key, which an insert writes as 0. -/
def storedFields (B : Builtins) (now : Int) (schema : Schema) (body : Body) :
    List (String × Value) :=
  fieldsOf B now schema body ++ [("__v", .num (.finite 0))]

/-- The `_id` of a new document: generated, unless the body supplies one; a
supplied null is no id, and one is generated at the insert as well. -/
def idOutcome (B : Builtins) (rt : Runtime) (body : Body) : IdOutcome :=
  match body.lookup "_id" with
  | none => .id rt.objectId
  | some .null => .id rt.objectId
  | some j => B.castObjectId j

/-- The CastError of a supplied `_id`, if any. -/
def idError (B : Builtins) (rt : Runtime) (body : Body) : List Detail :=
  match idOutcome B rt body with
  | .castError => [.castFailed "_id"]
  | _ => []

/-- `new Model(body)` followed by `save()`, for the model compiled from `schema`:
validation of every path of the model comes first and is local; then the insert
meets the store, which refuses a duplicate `_id`. -/
def save (B : Builtins) (schema : Schema) (rt : Runtime) (coll : List Doc) (body : Body) :
    SaveResult :=
  match idError B rt body ++ validate B rt.now (model schema) body with
  | e :: es => .validationError (e :: es)
  | [] =>
    match idOutcome B rt body with
    | .castError => .validationError [.castFailed "_id"]
    | .rejected text => .failed (.invalidId text)
    | .id i =>
      match rt.storeError with
      | some text => .failed (.driver text)
      | none =>
        if i ∈ coll.map Doc._id then .failed (.duplicateKey i)
        else .saved ⟨i, storedFields B rt.now schema body⟩

/-- `findByIdAndDelete`: the first document with the id, and the rest. -/
def findByIdAndDelete (i : DocId) : List Doc → Option (Doc × List Doc)
  | [] => none
  | d :: ds =>
    if d._id = i then some (d, ds)
    else match findByIdAndDelete i ds with
      | some (r, rest) => some (r, d :: rest)
      | none => none

/-- The JSON body of a response. -/
inductive ResponseBody where
  | document (d : Doc)
  | documents (ds : List Doc)
  | validationFailed (error : String) (details : List Detail)
  | failure (error : String) (message : Option ErrorMessage)
  | notFound (error : String)
  | deleted (message : String) (id : String)
  | health (status : String) (timestamp : Int) (database : String) (mongodb_connected : Bool)
  deriving DecidableEq

/-- An HTTP response: status code and JSON body. -/
structure Response where
  status : Nat
  body : ResponseBody
  deriving DecidableEq

/-! ## Route handlers (server.js) -/

/-- The connection states named by the health probe. -/
def statusMap (readyState : Int) : Option String :=
  if readyState = 0 then some "disconnected"
  else if readyState = 1 then some "connected"
  else if readyState = 2 then some "connecting"
  else if readyState = 3 then some "disconnecting"
  else none

/-- Handler of `GET /api/health`. -/
def health (readyState : Int) (now : Int) : Response :=
  let dbStatus := readyState
  ⟨200, .health "ok" now ((statusMap dbStatus).getD "unknown") (decide (dbStatus = 1))⟩

/-- The `createdAt` of a document as a sort key: a date, or nothing (null). -/
def Doc.createdAt (d : Doc) : Option Int :=
  match d.get "createdAt" with
  | some (.date ms) => some ms
  | _ => none

/-- Order of sort keys: null sorts below every date. -/
def keyLe : Option Int → Option Int → Bool
  | none, _ => true
  | some _, none => false
  | some a, some b => decide (a ≤ b)

/-- The order of `sort({createdAt: -1})`: `a` may stand before `b`. -/
def newerFirst (a b : Doc) : Prop := keyLe b.createdAt a.createdAt = true

instance : DecidableRel newerFirst := fun a b =>
  inferInstanceAs (Decidable (keyLe b.createdAt a.createdAt = true))

/-- The query `find().sort({createdAt: -1})` over a collection.  The sort is the
store's own; it is rendered here as a stable insertion sort by `createdAt`,
newest first. -/
def findSorted (coll : List Doc) : List Doc := coll.insertionSort newerFirst

/-- Handler of `GET /api/events`. -/
def getEvents (_penv : ProcessEnv) (rt : Runtime) (s : Store) : Response :=
  match rt.storeError with
  | none => ⟨200, .documents (findSorted s.events)⟩
  | some text => ⟨500, .failure "Failed to fetch events" (some (.driver text))⟩

/-- Handler of `POST /api/events`. -/
def postEvents (B : Builtins) (_penv : ProcessEnv) (rt : Runtime) (s : Store) (body : Body) :
    Response × Store :=
  match save B eventSchema rt s.events body with
  | .saved event => (⟨201, .document event⟩, { s with events := s.events ++ [event] })
  | .validationError details => (⟨400, .validationFailed "Validation failed" details⟩, s)
  | .failed m => (⟨500, .failure "Failed to create event" (some m)⟩, s)

/-- Handler of `DELETE /api/events/:id`. -/
def deleteEvent (B : Builtins) (_penv : ProcessEnv) (rt : Runtime) (s : Store) (id : String) :
    Response × Store :=
  match B.paramObjectId id with
  | none => (⟨500, .failure "Failed to delete event" (some (.castObjectId id))⟩, s)
  | some i =>
    match rt.storeError with
    | some text => (⟨500, .failure "Failed to delete event" (some (.driver text))⟩, s)
    | none =>
      match findByIdAndDelete i s.events with
      | none => (⟨404, .notFound "Event not found"⟩, s)
      | some (_, rest) =>
        (⟨200, .deleted "Event deleted successfully" id⟩, { s with events := rest })

/-- Handler of `GET /api/planning`. -/
def getPlanning (_penv : ProcessEnv) (rt : Runtime) (s : Store) : Response :=
  match rt.storeError with
  | none => ⟨200, .documents (findSorted s.planning)⟩
  | some text => ⟨500, .failure "Failed to fetch planning" (some (.driver text))⟩

/-- Handler of `POST /api/planning`. -/
def postPlanning (B : Builtins) (_penv : ProcessEnv) (rt : Runtime) (s : Store) (body : Body) :
    Response × Store :=
  match save B planningSchema rt s.planning body with
  | .saved plan => (⟨201, .document plan⟩, { s with planning := s.planning ++ [plan] })
  | .validationError details => (⟨400, .validationFailed "Validation failed" details⟩, s)
  | .failed m => (⟨500, .failure "Failed to create plan" (some m)⟩, s)

/-- Handler of `DELETE /api/planning/:id`. -/
def deletePlan (B : Builtins) (_penv : ProcessEnv) (rt : Runtime) (s : Store) (id : String) :
    Response × Store :=
  match B.paramObjectId id with
  | none => (⟨500, .failure "Failed to delete plan" (some (.castObjectId id))⟩, s)
  | some i =>
    match rt.storeError with
    | some text => (⟨500, .failure "Failed to delete plan" (some (.driver text))⟩, s)
    | none =>
      match findByIdAndDelete i s.planning with
      | none => (⟨404, .notFound "Plan not found"⟩, s)
      | some (_, rest) =>
        (⟨200, .deleted "Plan deleted successfully" id⟩, { s with planning := rest })

/-- The error-handling middleware at the end of the chain. -/
def errorHandler (penv : ProcessEnv) (err : ErrorMessage) : Response :=
  ⟨500, .failure "Internal server error"
    (if penv.NODE_ENV = some "development" then some err else none)⟩

/-! ## Page statistics (public/script.js) -/

/-- An entry of `allEvents`: the members of one JSON object of the fetched array. -/
abbrev EventEntry := List (String × Json)

/-- The test `v === lit` against a string literal. -/
def strictEq (v : Option Json) (lit : String) : Bool :=
  match v with
  | some (.str s) => s = lit
  | _ => false

/-- One card of the reports list, with the values it interpolates. -/
structure ReportCard where
  type : Option Json
  station : Option Json
  zone : Option Json
  dateKey : Option Json
  crowd : Option Json
  level : Option Json

/-- The content of the `reportsList` element. -/
inductive ReportsHtml where
  | untouched
  | noEvents
  | cards (cs : List ReportCard)

/-- The page state that `updateStats` reads and writes. -/
structure Page where
  allEvents : List EventEntry
  total : Option Nat
  l1 : Option Nat
  l2 : Option Nat
  l3 : Option Nat
  reportsList : ReportsHtml

/-- The comparator `new Date(b.dateKey) - new Date(a.dateKey)`; a NaN result counts
as zero in `Array.prototype.sort`. -/
def compareDates (B : Builtins) (a b : EventEntry) : Int :=
  match B.clientDate (b.lookup "dateKey"), B.clientDate (a.lookup "dateKey") with
  | some tb, some ta => tb - ta
  | _, _ => 0

/-- The call `[...allEvents].sort(cmp)`: a sorted copy (the order is the engine's
own where the comparator is inconsistent). -/
def sortedCopy (B : Builtins) (allEvents : List EventEntry) : List EventEntry :=
  allEvents.insertionSort (fun a b => compareDates B a b ≤ 0)

/-- The function `displayReports`. -/
def displayReports (B : Builtins) (p : Page) : Page :=
  if p.allEvents.length = 0 then { p with reportsList := .noEvents }
  else
    let sorted := sortedCopy B p.allEvents
    { p with reportsList := .cards (sorted.map (fun e =>
        ⟨e.lookup "type", e.lookup "station", e.lookup "zone", e.lookup "dateKey",
          e.lookup "crowd", e.lookup "level"⟩)) }

/-- The function `updateStats`. -/
def updateStats (B : Builtins) (p : Page) : Page :=
  let l1 := (p.allEvents.filter (fun e => strictEq (e.lookup "level") "L-1")).length
  let l2 := (p.allEvents.filter (fun e => strictEq (e.lookup "level") "L-2")).length
  let l3 := (p.allEvents.filter (fun e => strictEq (e.lookup "level") "L-3")).length
  displayReports B { p with total := some p.allEvents.length, l1 := some l1,
                            l2 := some l2, l3 := some l3 }

/-! ## Reachable stores -/

/-- The stores the server can be in: the empty store, and what the mutating
handlers make of a reachable store. -/
inductive Reachable (B : Builtins) : Store → Prop where
  | init : Reachable B ⟨[], []⟩
  | postEvents (penv rt s body) : Reachable B s → Reachable B (postEvents B penv rt s body).2
  | deleteEvent (penv rt s id) : Reachable B s → Reachable B (deleteEvent B penv rt s id).2
  | postPlanning (penv rt s body) :
      Reachable B s → Reachable B (postPlanning B penv rt s body).2
  | deletePlan (penv rt s id) : Reachable B s → Reachable B (deletePlan B penv rt s id).2

/-- The value of a hexadecimal digit. -/
def hexDigit (c : Char) : Option Nat :=
  if c.isDigit then some (c.toNat - 48)
  else if 'a' ≤ c ∧ c ≤ 'f' then some (c.toNat - 87)
  else if 'A' ≤ c ∧ c ≤ 'F' then some (c.toNat - 55)
  else none

/-- The number written by a list of hexadecimal digits, after `acc`. -/
def hexValue (acc : Nat) : List Char → Option Nat
  | [] => some acc
  | c :: cs =>
    match hexDigit c with
    | some v => hexValue (16 * acc + v) cs
    | none => none

/-- The ObjectId written by a string of 24 hexadecimal digits. -/
def objectIdOfHex (s : String) : Option DocId :=
  if s.data.length = 24 then hexValue 0 s.data else none

/-- A sample interpretation of the conversions, for the concrete evaluations:
ObjectIds are read from 24 hexadecimal digits, integers are read and written in
decimal.  It is exact on those inputs, which are the only ones the evaluations
hand to it; elsewhere (fractions to text, dates from text) it stands for no
particular engine. -/
def sampleBuiltins : Builtins where
  toNumber s := match s.toInt? with
    | some n => .finite n
    | none => .nan
  numberToString x := match x with
    | .finite q => toString q.num
    | .posInf => "Infinity"
    | .negInf => "-Infinity"
    | .nan => "NaN"
  parseDate _ := none
  castObjectId j := match j with
    | .str s => match objectIdOfHex s with
      | some i => .id i
      | none => .castError
    | _ => .castError
  paramObjectId s := objectIdOfHex s
  clientDate _ := none

/-! ## Readings used to state the properties -/

/-- The string that the String cast reads from a supplied value, if it reads one. -/
def readString (B : Builtins) : Option Json → Option String
  | none => none
  | some j =>
    match castString B j with
    | .ok (.str t) => some t
    | _ => none

/-- The shape in words: four digits, a hyphen, two digits, a hyphen, two digits,
and nothing before or after. -/
def ymdShape (t : String) : Bool :=
  match t.data with
  | [y₁, y₂, y₃, y₄, h₁, m₁, m₂, h₂, d₁, d₂] =>
    y₁.isDigit && y₂.isDigit && y₃.isDigit && y₄.isDigit && h₁ = '-' &&
    m₁.isDigit && m₂.isDigit && h₂ = '-' && d₁.isDigit && d₂.isDigit
  | _ => false

/-- Consume one character per predicate, in order. -/
def consume : List (Char → Bool) → List Char → Option (List Char)
  | [], cs => some cs
  | _ :: _, [] => none
  | p :: ps, c :: cs => if p c then consume ps cs else none

/-- Whether the predicates consume the whole input. -/
def consumesAll (ps : List (Char → Bool)) (cs : List Char) : Bool :=
  match consume ps cs with
  | some [] => true
  | _ => false

/-- A number below zero. -/
def JsNumber.negative : JsNumber → Bool
  | .finite q => q < 0
  | .negInf => true
  | _ => false

/-! ## Sample inputs -/

/-- An event body as the page's form sends it, for a date key, a crowd and a level,
followed by further members. -/
def eventBody (dateKey : String) (crowd : JsNumber) (level : Json) (more : Body) : Body :=
  [("dateKey", .str dateKey), ("type", .str "Festival"), ("station", .str "Central"),
   ("zone", .str "CR"), ("crowd", .num crowd), ("level", level), ("division", .str "")] ++ more

/-- The values such a body is stored with. -/
def eventFields (crowd : JsNumber) (level : String) (createdAt : Int) :
    List (String × Value) :=
  [("dateKey", .str "2024-03-01"), ("type", .str "Festival"), ("station", .str "Central"),
   ("zone", .str "CR"), ("division", .str ""), ("crowd", .num crowd),
   ("level", .str level), ("createdAt", .date createdAt), ("__v", .num (.finite 0))]

/-- A plan body as the page's form sends it, for a date key and an expected crowd. -/
def planBody (dateKey : String) (expectedCrowd : JsNumber) : Body :=
  [("dateKey", .str dateKey), ("stationName", .str "Central"),
   ("expectedCrowd", .num expectedCrowd), ("grpStaff", .num (.finite 10)),
   ("rpfStaff", .num (.finite 5)), ("commercialStaff", .num (.finite 0)),
   ("trainNumber", .str ""), ("trainType", .str ""), ("trainRoute", .str "")]

/-- The values such a plan is stored with. -/
def planFields (dateKey : String) (expectedCrowd : JsNumber) (createdAt : Int) :
    List (String × Value) :=
  [("dateKey", .str dateKey), ("stationName", .str "Central"),
   ("expectedCrowd", .num expectedCrowd), ("grpStaff", .num (.finite 10)),
   ("rpfStaff", .num (.finite 5)), ("commercialStaff", .num (.finite 0)),
   ("trainNumber", .str ""), ("trainType", .str ""), ("trainRoute", .str ""),
   ("createdAt", .date createdAt), ("__v", .num (.finite 0))]

/-- The number 2.5, as the fraction 5/2 in lowest terms. -/
def twoAndHalf : ℚ := ⟨5, 2, by decide, by decide⟩

/-- A runtime with a clock value, a generated id and a store that answers. -/
def sampleRuntime : Runtime := ⟨1700000000000, 7, none⟩

/-- A number that is at least zero and has no fractional part. -/
def JsNumber.isNonNegInteger : JsNumber → Bool
  | .finite q => 0 ≤ q && q.den = 1
  | _ => false

/-- A supplied value that the String cast reads as a non-empty string. -/
def nonEmptyString (B : Builtins) (v : Option Json) : Bool :=
  match readString B v with
  | some t => t ≠ ""
  | none => false

/-- A staff count that is absent, or that the Number cast reads as null or as a
number that is at least zero. -/
def validCount (B : Builtins) : Option Json → Bool
  | none => true
  | some j =>
    match castNumber B j with
    | .ok .null => true
    | .ok (.num x) => x.ge 0
    | _ => false

/-- A value that is absent or that the cast of the type accepts. -/
def castable (B : Builtins) (type : SchemaType) : Option Json → Bool
  | none => true
  | some j =>
    match cast B type j with
    | .ok _ => true
    | .error => false

/-! ## Health probe -/

/-- C8: for every readyState the health probe answers 200 with status 'ok',
`mongodb_connected` true exactly when readyState is 1, and `database` naming the
states 0 to 3 and 'unknown' for every other value. -/
theorem health_total (readyState now : Int) :
    health readyState now =
      ⟨200, .health "ok" now
        (if readyState = 0 then "disconnected" else if readyState = 1 then "connected"
         else if readyState = 2 then "connecting" else if readyState = 3 then "disconnecting"
         else "unknown")
        (decide (readyState = 1))⟩ ∧
    (decide (readyState = 1) = true ↔ readyState = 1) := by
  refine ⟨?_, by simp⟩
  by_cases h0 : readyState = 0
  · simp [health, statusMap, h0]
  by_cases h1 : readyState = 1
  · simp [health, statusMap, h1]
  by_cases h2 : readyState = 2
  · simp [health, statusMap, h2]
  by_cases h3 : readyState = 3
  · simp [health, statusMap, h3]
  simp [health, statusMap, h0, h1, h2, h3]

/-! ## Listing -/

theorem keyLe_total (a b : Option Int) : keyLe a b = true ∨ keyLe b a = true := by
  cases a <;> cases b <;> simp [keyLe]
  exact le_total _ _

theorem keyLe_trans {a b c : Option Int} (h₁ : keyLe a b = true) (h₂ : keyLe b c = true) :
    keyLe a c = true := by
  cases a <;> cases b <;> cases c <;> simp_all [keyLe]
  exact le_trans h₁ h₂

instance : IsTotal Doc newerFirst := ⟨fun a b => keyLe_total b.createdAt a.createdAt⟩

instance : IsTrans Doc newerFirst := ⟨fun _ _ _ h₁ h₂ => keyLe_trans h₂ h₁⟩

theorem createdAt_of_date {d : Doc} {t : Int} (h : d.get "createdAt" = some (.date t)) :
    d.createdAt = some t := by
  simp [Doc.createdAt, h]

theorem date_of_createdAt {d : Doc} {t : Int} (h : d.createdAt = some t) :
    d.get "createdAt" = some (.date t) := by
  unfold Doc.createdAt at h
  split at h
  · rename_i ms hms
    cases h
    exact hms
  · cases h

/-- C4: for every store (so for every reachable one) and a store that answers,
`GET /api/events` returns 200 with a list that holds exactly the persisted
events, ordered by the `createdAt` field descending: whenever an entry stands
before another whose `createdAt` field is a date, its own `createdAt` field is
a date that is not earlier (entries without a date, a null `createdAt`, come
last). -/
theorem getEvents_sorted (penv : ProcessEnv) (now : Int) (oid : DocId) (s : Store) :
    ∃ l, getEvents penv ⟨now, oid, none⟩ s = ⟨200, .documents l⟩ ∧ l.Perm s.events ∧
      l.Pairwise (fun a b => ∀ tb, b.get "createdAt" = some (.date tb) →
        ∃ ta, a.get "createdAt" = some (.date ta) ∧ tb ≤ ta) := by
  refine ⟨findSorted s.events, rfl, List.perm_insertionSort _ _, ?_⟩
  have hs : (findSorted s.events).Pairwise newerFirst :=
    List.sorted_insertionSort newerFirst _
  refine hs.imp ?_
  intro a b hab tb hb
  have hkey : keyLe (some tb) a.createdAt = true := by
    have h := hab
    unfold newerFirst at h
    rw [createdAt_of_date hb] at h
    exact h
  cases ha : a.createdAt with
  | none => simp [ha, keyLe] at hkey
  | some ta =>
    refine ⟨ta, date_of_createdAt ha, ?_⟩
    simpa [ha, keyLe] using hkey

/-! ## Validation -/

theorem mem_validate {B : Builtins} {now : Int} {schema : Schema} {body : Body} {p : PathSpec}
    {e : Detail} (hp : p ∈ schema) (he : pathError p (construct B now p body) = some e) :
    e ∈ validate B now schema body :=
  List.mem_filterMap.mpr ⟨p, hp, he⟩

theorem validate_model (B : Builtins) (now : Int) (schema : Schema) (body : Body) :
    validate B now (model schema) body =
      validate B now schema body ++ validate B now [versionKey] body := by
  unfold validate model
  rw [List.filterMap_append]

theorem save_of_invalid {B : Builtins} {schema : Schema} {rt : Runtime} {body : Body}
    {e : Detail} (coll : List Doc) (he : e ∈ validate B rt.now schema body) :
    ∃ details, save B schema rt coll body = .validationError details ∧ e ∈ details := by
  have he' : e ∈ validate B rt.now (model schema) body := by
    rw [validate_model]
    exact List.mem_append_left _ he
  unfold save
  cases h : idError B rt body ++ validate B rt.now (model schema) body with
  | nil =>
    have : e ∈ idError B rt body ++ validate B rt.now (model schema) body :=
      List.mem_append_right _ he'
    rw [h] at this
    cases this
  | cons a as =>
    refine ⟨a :: as, rfl, ?_⟩
    rw [← h]
    exact List.mem_append_right _ he'

theorem postEvents_of_invalid {B : Builtins} {rt : Runtime} {body : Body} {e : Detail}
    (penv : ProcessEnv) (s : Store) (he : e ∈ validate B rt.now eventSchema body) :
    ∃ details, postEvents B penv rt s body =
      (⟨400, .validationFailed "Validation failed" details⟩, s) ∧ e ∈ details := by
  obtain ⟨details, hs, hm⟩ := save_of_invalid s.events he
  exact ⟨details, by simp [postEvents, hs], hm⟩

theorem postPlanning_of_invalid {B : Builtins} {rt : Runtime} {body : Body} {e : Detail}
    (penv : ProcessEnv) (s : Store) (he : e ∈ validate B rt.now planningSchema body) :
    ∃ details, postPlanning B penv rt s body =
      (⟨400, .validationFailed "Validation failed" details⟩, s) ∧ e ∈ details := by
  obtain ⟨details, hs, hm⟩ := save_of_invalid s.planning he
  exact ⟨details, by simp [postPlanning, hs], hm⟩

theorem castString_value {B : Builtins} {j : Json} {v : Value} (h : castString B j = .ok v) :
    v = .null ∨ ∃ t, v = .str t := by
  cases j with
  | null => simp [castString] at h; exact Or.inl h.symm
  | bool b => simp [castString] at h; exact Or.inr ⟨_, h.symm⟩
  | num x => simp [castString] at h; exact Or.inr ⟨_, h.symm⟩
  | str t => simp [castString] at h; exact Or.inr ⟨_, h.symm⟩
  | arr items => simp [castString] at h
  | obj members =>
    simp only [castString] at h
    split at h
    · split at h
      · cases h
      · cases h; exact Or.inr ⟨_, rfl⟩
    · cases h

/-- C1 (amended): for every request body whose `level`, as the String cast reads
it, is not one of "L-1", "L-2", "L-3" (a missing or null level included), and
for every store and runtime, `POST /api/events` answers 400 with a non-empty
list of details and leaves the store as it was. -/
theorem postEvents_rejects_level (B : Builtins) (penv : ProcessEnv) (rt : Runtime) (s : Store)
    (body : Body)
    (h : readString B (body.lookup "level") ∉ [some "L-1", some "L-2", some "L-3"]) :
    ∃ details, postEvents B penv rt s body =
      (⟨400, .validationFailed "Validation failed" details⟩, s) ∧ details ≠ [] := by
  have hp : (⟨"level", .String, some "Crowd level is required", none,
      some ["L-1", "L-2", "L-3"], none, none⟩ : PathSpec) ∈ eventSchema := by
    simp [eventSchema]
  have key : (pathError ⟨"level", .String, some "Crowd level is required", none,
      some ["L-1", "L-2", "L-3"], none, none⟩
      (construct B rt.now ⟨"level", .String, some "Crowd level is required", none,
        some ["L-1", "L-2", "L-3"], none, none⟩ body)).isSome = true := by
    simp only [construct]
    cases hl : body.lookup "level" with
    | none => simp [pathError, missing]
    | some j =>
      simp only [cast]
      cases hc : castString B j with
      | error => simp [pathError]
      | ok v =>
        rcases castString_value hc with rfl | ⟨t, rfl⟩
        · simp [pathError, missing]
        · by_cases ht : t = ""
          · simp [pathError, missing, ht]
          · have hne : t ∉ ["L-1", "L-2", "L-3"] := by
              intro hmem
              apply h
              simp only [hl, readString, hc]
              simp only [List.mem_cons, List.mem_singleton, List.not_mem_nil, or_false] at hmem
              rcases hmem with rfl | rfl | rfl <;> simp
            simp [pathError, missing, ht, checkValue, matchError, enumError, minError, enumFails, hne]
  obtain ⟨e, he⟩ := Option.isSome_iff_exists.mp key
  obtain ⟨details, hpost, hm⟩ := postEvents_of_invalid penv s (mem_validate hp he)
  exact ⟨details, hpost, List.ne_nil_of_mem hm⟩

/-- C1 (counterexample): a body whose `level` is the object `{"_id": "L-1"}`, which
is none of the three strings, is accepted: the answer is 201 and the event is
stored with level "L-1". -/
theorem level_object_accepted :
    postEvents sampleBuiltins ⟨none⟩ sampleRuntime ⟨[], []⟩
        (eventBody "2024-03-01" (.finite 5000) (.obj [("_id", .str "L-1")]) []) =
      (⟨201, .document ⟨7, eventFields (.finite 5000) "L-1" 1700000000000⟩⟩,
       ⟨[⟨7, eventFields (.finite 5000) "L-1" 1700000000000⟩], []⟩) := by
  decide

/-- C1 (witness): the level "L-4", and a missing level. -/
theorem postEvents_rejects_level_witness :
    (readString sampleBuiltins ((eventBody "2024-03-01" (.finite 5000) (.str "L-4") []).lookup "level")
        ∉ [some "L-1", some "L-2", some "L-3"] ∧
      ∃ details, postEvents sampleBuiltins ⟨none⟩ sampleRuntime ⟨[], []⟩
          (eventBody "2024-03-01" (.finite 5000) (.str "L-4") []) =
        (⟨400, .validationFailed "Validation failed" details⟩, ⟨[], []⟩) ∧ details ≠ []) ∧
    (readString sampleBuiltins (([("station", .str "Central")] : Body).lookup "level")
        ∉ [some "L-1", some "L-2", some "L-3"] ∧
      ∃ details, postEvents sampleBuiltins ⟨none⟩ sampleRuntime ⟨[], []⟩
          [("station", .str "Central")] =
        (⟨400, .validationFailed "Validation failed" details⟩, ⟨[], []⟩) ∧ details ≠ []) :=
  ⟨⟨by decide, postEvents_rejects_level _ _ _ _ _ (by decide)⟩,
   ⟨by decide, postEvents_rejects_level _ _ _ _ _ (by decide)⟩⟩

theorem digits_eq_consume (n : Nat) (cs : List Char) :
    digits n cs = consume (List.replicate n Char.isDigit) cs := by
  induction n generalizing cs with
  | zero => simp [digits, consume]
  | succ n ih =>
    cases cs with
    | nil => simp [digits, consume, List.replicate_succ]
    | cons c cs => simp [digits, consume, List.replicate_succ, ih]

theorem literal_eq_consume (c : Char) (cs : List Char) :
    literal c cs = consume [fun d => decide (d = c)] cs := by
  cases cs <;> simp [literal, consume]

theorem consume_bind (ps qs : List (Char → Bool)) (cs : List Char) :
    (consume ps cs).bind (consume qs) = consume (ps ++ qs) cs := by
  induction ps generalizing cs with
  | nil => simp [consume]
  | cons p ps ih =>
    cases cs with
    | nil => cases qs <;> simp [consume]
    | cons c cs =>
      simp only [consume, List.cons_append]
      split_ifs
      · exact ih cs
      · rfl

theorem consumesAll_cons (p : Char → Bool) (ps : List (Char → Bool)) (c : Char)
    (cs : List Char) : consumesAll (p :: ps) (c :: cs) = (p c && consumesAll ps cs) := by
  simp only [consumesAll, consume]
  cases p c <;> simp

theorem dateKeyPattern_eq (t : String) : dateKeyPattern t = ymdShape t := by
  rcases t with ⟨cs⟩
  have h : dateKeyPattern ⟨cs⟩ = consumesAll
      [Char.isDigit, Char.isDigit, Char.isDigit, Char.isDigit, fun d => decide (d = '-'),
       Char.isDigit, Char.isDigit, fun d => decide (d = '-'), Char.isDigit, Char.isDigit] cs := by
    simp only [dateKeyPattern, consumesAll]
    have e : (fun cs => literal '-' cs) = consume [fun d => decide (d = '-')] :=
      funext (literal_eq_consume '-')
    have e4 : (fun cs => digits 2 cs) = consume (List.replicate 2 Char.isDigit) :=
      funext (digits_eq_consume 2)
    rw [show literal '-' = consume [fun d => decide (d = '-')] from e,
      show digits 2 = consume (List.replicate 2 Char.isDigit) from e4,
      digits_eq_consume, consume_bind, consume_bind, consume_bind, consume_bind]
    rfl
  rw [h]
  simp only [ymdShape]
  rcases cs with _ | ⟨a, _ | ⟨b, _ | ⟨c, _ | ⟨d, _ | ⟨e, _ | ⟨f, _ | ⟨g, _ | ⟨h, _ | ⟨i, _ | ⟨j, _ | ⟨k, rest⟩⟩⟩⟩⟩⟩⟩⟩⟩⟩⟩
  all_goals simp only [consumesAll_cons]
  all_goals simp [consumesAll, consume, Bool.and_assoc]

theorem ymdShape_ne_empty {t : String} (h : ymdShape t = true) : t ≠ "" := by
  rintro rfl
  simp [ymdShape] at h

/-- C2: for every request body whose `dateKey` is a string: if the string has not
the shape of four digits, a hyphen, two digits, a hyphen, two digits (the whole
string), `POST /api/events` fails validation (400 with details, store as it
was) whatever the other fields are; if it has that shape, the `dateKey` path
yields no validation error. -/
theorem dateKey_shape (B : Builtins) (penv : ProcessEnv) (rt : Runtime) (s : Store)
    (body : Body) (t : String) (h : body.lookup "dateKey" = some (.str t)) :
    if ymdShape t = true then
      ∀ p ∈ eventSchema, p.path = "dateKey" → pathError p (construct B rt.now p body) = none
    else
      ∃ details, postEvents B penv rt s body =
        (⟨400, .validationFailed "Validation failed" details⟩, s) ∧ details ≠ [] := by
  split_ifs with hs
  · intro p hp hpath
    have hne := ymdShape_ne_empty hs
    simp only [eventSchema, plain, List.mem_cons, List.mem_singleton, List.not_mem_nil,
      or_false] at hp
    rcases hp with rfl | rfl | rfl | rfl | rfl | rfl | rfl | rfl <;>
      simp at hpath
    simp [construct, h, cast, castString, pathError, missing, hne, checkValue, matchError, enumError, minError, matchFails,
      dateKeyPattern_eq, hs]
  · have hp : (⟨"dateKey", .String, some "Date key is required",
        some (dateKeyPattern, "Date key must be YYYY-MM-DD"), none, none, none⟩ : PathSpec)
        ∈ eventSchema := by
      simp [eventSchema]
    have key : (pathError ⟨"dateKey", .String, some "Date key is required",
        some (dateKeyPattern, "Date key must be YYYY-MM-DD"), none, none, none⟩
        (construct B rt.now ⟨"dateKey", .String, some "Date key is required",
          some (dateKeyPattern, "Date key must be YYYY-MM-DD"), none, none, none⟩
          body)).isSome = true := by
      by_cases ht : t = ""
      · simp [construct, h, cast, castString, pathError, missing, ht]
      · simp [construct, h, cast, castString, pathError, missing, ht, checkValue, matchError, enumError, minError, matchFails,
          dateKeyPattern_eq, hs]
    obtain ⟨e, he⟩ := Option.isSome_iff_exists.mp key
    obtain ⟨details, hpost, hm⟩ := postEvents_of_invalid penv s (mem_validate hp he)
    exact ⟨details, hpost, List.ne_nil_of_mem hm⟩

/-- C2 (witness): the date keys "2024-03-01" and "2024-3-1". -/
theorem dateKey_shape_witness :
    ((eventBody "2024-03-01" (.finite 5000) (.str "L-2") []).lookup "dateKey" = some (.str "2024-03-01") ∧
      ∀ p ∈ eventSchema, p.path = "dateKey" →
        pathError p (construct sampleBuiltins 1700000000000 p (eventBody "2024-03-01" (.finite 5000) (.str "L-2") []))
          = none) ∧
    ((eventBody "2024-3-1" (.finite 5000) (.str "L-2") []).lookup "dateKey" = some (.str "2024-3-1") ∧
      ∃ details, postEvents sampleBuiltins ⟨none⟩ sampleRuntime ⟨[], []⟩
          (eventBody "2024-3-1" (.finite 5000) (.str "L-2") []) =
        (⟨400, .validationFailed "Validation failed" details⟩, ⟨[], []⟩) ∧ details ≠ []) :=
  ⟨⟨rfl, by
      simpa using dateKey_shape sampleBuiltins ⟨none⟩ sampleRuntime ⟨[], []⟩
        (eventBody "2024-03-01" (.finite 5000) (.str "L-2") []) "2024-03-01" (rfl)⟩,
   ⟨rfl, by
      simpa using dateKey_shape sampleBuiltins ⟨none⟩ sampleRuntime ⟨[], []⟩
        (eventBody "2024-3-1" (.finite 5000) (.str "L-2") []) "2024-3-1" (rfl)⟩⟩

/-! ## Saving and deleting -/

theorem save_saved {B : Builtins} {schema : Schema} {rt : Runtime} {coll : List Doc}
    {body : Body} {d : Doc} (h : save B schema rt coll body = .saved d) :
    validate B rt.now schema body = [] ∧ idOutcome B rt body = .id d._id ∧
      rt.storeError = none ∧ d._id ∉ coll.map Doc._id ∧
      d.fields = storedFields B rt.now schema body := by
  unfold save at h
  split at h
  · cases h
  · rename_i hnil
    have hv : validate B rt.now schema body = [] := by
      have hm := (List.append_eq_nil.mp hnil).2
      rw [validate_model] at hm
      exact (List.append_eq_nil.mp hm).1
    split at h
    · cases h
    · cases h
    · rename_i i hi
      split at h
      · cases h
      · split_ifs at h with hmem
        cases h
        exact ⟨hv, hi, by assumption, hmem, rfl⟩

theorem findByIdAndDelete_none {i : DocId} {l : List Doc} :
    findByIdAndDelete i l = none ↔ i ∉ l.map Doc._id := by
  induction l with
  | nil => simp [findByIdAndDelete]
  | cons d ds ih =>
    simp only [findByIdAndDelete]
    by_cases hd : d._id = i
    · simp [hd]
    · simp only [hd, if_false, List.map_cons, List.mem_cons, not_or]
      cases hf : findByIdAndDelete i ds with
      | none => exact ⟨fun _ => ⟨Ne.symm hd, ih.mp hf⟩, fun _ => rfl⟩
      | some r =>
        constructor
        · intro h
          cases h
        · intro h
          rw [ih.mpr h.2] at hf
          cases hf

theorem findByIdAndDelete_some {i : DocId} {l : List Doc} {r : Doc} {rest : List Doc}
    (h : findByIdAndDelete i l = some (r, rest)) :
    r ∈ l ∧ r._id = i ∧ rest = l.erase r := by
  induction l generalizing rest with
  | nil => simp [findByIdAndDelete] at h
  | cons d ds ih =>
    simp only [findByIdAndDelete] at h
    by_cases hd : d._id = i
    · simp only [hd, if_true, Option.some.injEq, Prod.mk.injEq] at h
      obtain ⟨rfl, rfl⟩ := h
      exact ⟨List.mem_cons_self _ _, hd, by simp⟩
    · simp only [hd, if_false] at h
      cases hf : findByIdAndDelete i ds with
      | none => simp [hf] at h
      | some q =>
        obtain ⟨r', rest'⟩ := q
        simp only [hf, Option.some.injEq, Prod.mk.injEq] at h
        obtain ⟨rfl, rfl⟩ := h
        obtain ⟨hm, hid, he⟩ := ih hf
        have hne : d ≠ r' := fun e => hd (e ▸ hid)
        refine ⟨List.mem_cons_of_mem _ hm, hid, ?_⟩
        rw [List.erase_cons_tail (by simpa using hne), he]

theorem findByIdAndDelete_of_mem {l : List Doc} {d : Doc} (hn : (l.map Doc._id).Nodup)
    (hd : d ∈ l) : findByIdAndDelete d._id l = some (d, l.erase d) := by
  cases hf : findByIdAndDelete d._id l with
  | none => exact absurd (List.mem_map_of_mem _ hd) (findByIdAndDelete_none.mp hf)
  | some q =>
    obtain ⟨r, rest⟩ := q
    obtain ⟨hm, hid, he⟩ := findByIdAndDelete_some hf
    have : r = d := List.inj_on_of_nodup_map hn hm hd hid
    subst this
    rw [he]

theorem nodup_ids_erase {l : List Doc} (d : Doc) (hn : (l.map Doc._id).Nodup) :
    ((l.erase d).map Doc._id).Nodup :=
  hn.sublist ((List.erase_sublist d l).map _)

theorem nodup_ids_save {B : Builtins} {schema : Schema} {rt : Runtime} {coll : List Doc}
    {body : Body} {d : Doc} (h : save B schema rt coll body = .saved d)
    (hn : (coll.map Doc._id).Nodup) : ((coll ++ [d]).map Doc._id).Nodup := by
  have hd := (save_saved h).2.2.2.1
  rw [List.map_append, List.nodup_append]
  refine ⟨hn, by simp, ?_⟩
  intro a ha hb
  simp only [List.map_cons, List.map_nil, List.mem_singleton] at hb
  exact hd (hb ▸ ha)

theorem reachable_nodup {B : Builtins} {s : Store} (h : Reachable B s) :
    (s.events.map Doc._id).Nodup ∧ (s.planning.map Doc._id).Nodup := by
  induction h with
  | init => simp
  | postEvents penv rt s body _ ih =>
    unfold Railway.postEvents
    cases hs : save B eventSchema rt s.events body with
    | saved d => exact ⟨nodup_ids_save hs ih.1, ih.2⟩
    | validationError details => exact ih
    | failed m => exact ih
  | postPlanning penv rt s body _ ih =>
    unfold Railway.postPlanning
    cases hs : save B planningSchema rt s.planning body with
    | saved d => exact ⟨ih.1, nodup_ids_save hs ih.2⟩
    | validationError details => exact ih
    | failed m => exact ih
  | deleteEvent penv rt s id _ ih =>
    unfold Railway.deleteEvent
    split
    · exact ih
    · split
      · exact ih
      · split
        · exact ih
        · rename_i hf
          obtain ⟨_, _, he⟩ := findByIdAndDelete_some hf
          refine ⟨?_, ih.2⟩
          show (List.map Doc._id _).Nodup
          rw [he]
          exact nodup_ids_erase _ ih.1
  | deletePlan penv rt s id _ ih =>
    unfold Railway.deletePlan
    split
    · exact ih
    · split
      · exact ih
      · split
        · exact ih
        · rename_i hf
          obtain ⟨_, _, he⟩ := findByIdAndDelete_some hf
          refine ⟨ih.1, ?_⟩
          show (List.map Doc._id _).Nodup
          rw [he]
          exact nodup_ids_erase _ ih.2

/-- C3: for every event `d` of a reachable store and every route parameter that
denotes its id, with a store that answers: `DELETE /api/events/:id` returns 200
with the message and the requested id, the events become the former events
without `d` (order kept, nothing else touched, plans untouched), and the same
DELETE again returns 404 and leaves the store as it is. -/
theorem deleteEvent_once (B : Builtins) (penv : ProcessEnv) (now now' : Int)
    (oid oid' : DocId) (s : Store) (d : Doc) (id : String)
    (hs : Reachable B s) (hd : d ∈ s.events) (hid : B.paramObjectId id = some d._id) :
    (deleteEvent B penv ⟨now, oid, none⟩ s id).1 =
        ⟨200, .deleted "Event deleted successfully" id⟩ ∧
    (deleteEvent B penv ⟨now, oid, none⟩ s id).2 = ⟨s.events.erase d, s.planning⟩ ∧
    (∀ e, e ∈ s.events.erase d ↔ e ∈ s.events ∧ e ≠ d) ∧
    deleteEvent B penv ⟨now', oid', none⟩ (deleteEvent B penv ⟨now, oid, none⟩ s id).2 id =
      (⟨404, .notFound "Event not found"⟩, (deleteEvent B penv ⟨now, oid, none⟩ s id).2) := by
  have hn := (reachable_nodup hs).1
  have hnd : s.events.Nodup := List.Nodup.of_map _ hn
  have h1 : deleteEvent B penv ⟨now, oid, none⟩ s id =
      (⟨200, .deleted "Event deleted successfully" id⟩, ⟨s.events.erase d, s.planning⟩) := by
    simp [deleteEvent, hid, findByIdAndDelete_of_mem hn hd]
  have hgone : d._id ∉ (s.events.erase d).map Doc._id := by
    intro hmem
    obtain ⟨e, he, heid⟩ := List.mem_map.mp hmem
    have hee : e = d := List.inj_on_of_nodup_map hn (List.mem_of_mem_erase he) hd heid
    exact (List.Nodup.mem_erase_iff hnd).mp (hee ▸ he) |>.1 rfl
  refine ⟨by rw [h1], by rw [h1], ?_, ?_⟩
  · intro e
    rw [List.Nodup.mem_erase_iff hnd, and_comm]
  · rw [h1]
    simp [deleteEvent, hid, findByIdAndDelete_none.mpr hgone]

/-- C3 (witness): the store that holds one created event, deleted by the 24 digits
of its id, and deleted again. -/
theorem deleteEvent_once_witness :
    (Reachable sampleBuiltins ⟨[⟨7, eventFields (.finite 5000) "L-2" 1700000000000⟩], []⟩ ∧
      (⟨7, eventFields (.finite 5000) "L-2" 1700000000000⟩ : Doc) ∈
        [(⟨7, eventFields (.finite 5000) "L-2" 1700000000000⟩ : Doc)] ∧
      sampleBuiltins.paramObjectId "000000000000000000000007" = some 7) ∧
    (deleteEvent sampleBuiltins ⟨none⟩ ⟨1700000000001, 8, none⟩
        ⟨[⟨7, eventFields (.finite 5000) "L-2" 1700000000000⟩], []⟩
        "000000000000000000000007" =
      (⟨200, .deleted "Event deleted successfully" "000000000000000000000007"⟩, ⟨[], []⟩) ∧
     deleteEvent sampleBuiltins ⟨none⟩ ⟨1700000000002, 9, none⟩ ⟨[], []⟩
        "000000000000000000000007" =
      (⟨404, .notFound "Event not found"⟩, ⟨[], []⟩)) := by
  have hr : Reachable sampleBuiltins
      ⟨[⟨7, eventFields (.finite 5000) "L-2" 1700000000000⟩], []⟩ := by
    have h := Reachable.postEvents (B := sampleBuiltins) ⟨none⟩ sampleRuntime ⟨[], []⟩
      (eventBody "2024-03-01" (.finite 5000) (.str "L-2") []) Reachable.init
    have e : (postEvents sampleBuiltins ⟨none⟩ sampleRuntime ⟨[], []⟩
        (eventBody "2024-03-01" (.finite 5000) (.str "L-2") [])).2 =
        ⟨[⟨7, eventFields (.finite 5000) "L-2" 1700000000000⟩], []⟩ := by decide
    rw [e] at h
    exact h
  have hm : (⟨7, eventFields (.finite 5000) "L-2" 1700000000000⟩ : Doc) ∈
      [(⟨7, eventFields (.finite 5000) "L-2" 1700000000000⟩ : Doc)] :=
    List.mem_singleton.mpr rfl
  have hp : sampleBuiltins.paramObjectId "000000000000000000000007" = some 7 := by decide
  have h := deleteEvent_once sampleBuiltins ⟨none⟩ 1700000000001 1700000000002 8 9 _ _ _
    hr hm hp
  have h2 : (deleteEvent sampleBuiltins ⟨none⟩ ⟨1700000000001, 8, none⟩
      ⟨[⟨7, eventFields (.finite 5000) "L-2" 1700000000000⟩], []⟩
      "000000000000000000000007").2 = ⟨[], []⟩ := by
    rw [h.2.1]
    simp
  refine ⟨⟨hr, hm, hp⟩, ?_, ?_⟩
  · exact Prod.ext h.1 h2
  · have h4 := h.2.2.2
    rw [h2] at h4
    exact h4

/-! ## What a created record holds -/

theorem fieldsOf_cons (B : Builtins) (now : Int) (body : Body) (q : PathSpec) (qs : Schema) :
    fieldsOf B now (q :: qs) body =
      match construct B now q body with
      | .value (some v) => (q.path, v) :: fieldsOf B now qs body
      | _ => fieldsOf B now qs body := by
  unfold fieldsOf
  rw [List.filterMap_cons]
  cases construct B now q body with
  | castError => rfl
  | value o => cases o <;> rfl

theorem lookup_fieldsOf_none (B : Builtins) (now : Int) (body : Body) {k : String} :
    ∀ (schema : Schema), k ∉ schema.map PathSpec.path →
      (fieldsOf B now schema body).lookup k = none := by
  intro schema
  induction schema with
  | nil => intro _; rfl
  | cons q qs ih =>
    intro hk
    simp only [List.map_cons, List.mem_cons, not_or] at hk
    have hne : (k == q.path) = false := by simpa using hk.1
    rw [fieldsOf_cons]
    cases construct B now q body with
    | castError => exact ih hk.2
    | value o =>
      cases o with
      | none => exact ih hk.2
      | some v =>
        show List.lookup k ((q.path, v) :: fieldsOf B now qs body) = none
        rw [List.lookup_cons, hne]
        exact ih hk.2

theorem lookup_fieldsOf (B : Builtins) (now : Int) (body : Body) :
    ∀ (schema : Schema), (schema.map PathSpec.path).Nodup → ∀ p ∈ schema,
      (fieldsOf B now schema body).lookup p.path =
        match construct B now p body with
        | .value (some v) => some v
        | _ => none := by
  intro schema
  induction schema with
  | nil => intro _ p hp; cases hp
  | cons q qs ih =>
    intro hn p hp
    rw [List.map_cons, List.nodup_cons] at hn
    rw [fieldsOf_cons]
    rcases List.mem_cons.mp hp with rfl | hp'
    · have hnone := lookup_fieldsOf_none B now body qs hn.1
      cases construct B now p body with
      | castError => exact hnone
      | value o =>
        cases o with
        | none => exact hnone
        | some v =>
          show List.lookup p.path ((p.path, v) :: fieldsOf B now qs body) = some v
          rw [List.lookup_cons]
          simp
    · have hne : (p.path == q.path) = false := by
        have : p.path ≠ q.path := fun e => hn.1 (e ▸ List.mem_map_of_mem _ hp')
        simpa using this
      have ih' := ih hn.2 p hp'
      cases construct B now q body with
      | castError => exact ih'
      | value o =>
        cases o with
        | none => exact ih'
        | some v =>
          show List.lookup p.path ((q.path, v) :: fieldsOf B now qs body) = _
          rw [List.lookup_cons, hne]
          exact ih'

theorem lookup_append_some {k : String} {v : Value} (l m : List (String × Value))
    (h : l.lookup k = some v) : (l ++ m).lookup k = some v := by
  induction l with
  | nil => cases h
  | cons a as ih =>
    obtain ⟨k', v'⟩ := a
    rw [List.cons_append, List.lookup_cons]
    rw [List.lookup_cons] at h
    cases hk : k == k' with
    | true => simpa [hk] using h
    | false =>
      simp only [hk] at h ⊢
      exact ih h

theorem postEvents_created {B : Builtins} {penv : ProcessEnv} {rt : Runtime} {s s' : Store}
    {body : Body} {d : Doc} (h : postEvents B penv rt s body = (⟨201, .document d⟩, s')) :
    save B eventSchema rt s.events body = .saved d ∧ s' = ⟨s.events ++ [d], s.planning⟩ := by
  unfold postEvents at h
  split at h
  · rename_i e he
    simp only [Prod.mk.injEq, Response.mk.injEq, ResponseBody.document.injEq, true_and] at h
    obtain ⟨rfl, rfl⟩ := h
    exact ⟨he, rfl⟩
  · simp at h
  · simp at h

theorem postPlanning_created {B : Builtins} {penv : ProcessEnv} {rt : Runtime} {s s' : Store}
    {body : Body} {d : Doc} (h : postPlanning B penv rt s body = (⟨201, .document d⟩, s')) :
    save B planningSchema rt s.planning body = .saved d ∧
      s' = ⟨s.events, s.planning ++ [d]⟩ := by
  unfold postPlanning at h
  split at h
  · rename_i e he
    simp only [Prod.mk.injEq, Response.mk.injEq, ResponseBody.document.injEq, true_and] at h
    obtain ⟨rfl, rfl⟩ := h
    exact ⟨he, rfl⟩
  · simp at h
  · simp at h

theorem eventSchema_paths : (eventSchema.map PathSpec.path).Nodup := by
  decide

theorem planningSchema_paths : (planningSchema.map PathSpec.path).Nodup := by
  decide

theorem save_server_assigned {B : Builtins} {schema : Schema} {rt : Runtime} {coll : List Doc}
    {body : Body} {d : Doc} (hn : (schema.map PathSpec.path).Nodup)
    (hp : (⟨"createdAt", .Date, none, none, none, none, some .now⟩ : PathSpec) ∈ schema)
    (hc : body.lookup "createdAt" = none) (hi : body.lookup "_id" = none)
    (h : save B schema rt coll body = .saved d) :
    d._id = rt.objectId ∧ d.get "createdAt" = some (.date rt.now) := by
  obtain ⟨_, hid, _, _, hf⟩ := save_saved h
  constructor
  · simp only [idOutcome, hi, IdOutcome.id.injEq] at hid
    exact hid.symm
  · have := lookup_fieldsOf B rt.now body schema hn _ hp
    simp only [construct, hc] at this
    rw [Doc.get, hf]
    exact lookup_append_some _ _ this

/-- C5 (amended): for every body accepted by `POST /api/events` or
`POST /api/planning` that supplies neither `createdAt` nor `_id`, the created
record has the generated identifier and the clock's value as `createdAt`,
whatever the other fields are. -/
theorem created_server_assigned (B : Builtins) (penv : ProcessEnv) (rt : Runtime) (s s' : Store)
    (body : Body) (d : Doc)
    (hc : body.lookup "createdAt" = none) (hi : body.lookup "_id" = none)
    (h : postEvents B penv rt s body = (⟨201, .document d⟩, s') ∨
         postPlanning B penv rt s body = (⟨201, .document d⟩, s')) :
    d._id = rt.objectId ∧ d.get "createdAt" = some (.date rt.now) := by
  rcases h with h | h
  · exact save_server_assigned eventSchema_paths (by simp [eventSchema]) hc hi
      (postEvents_created h).1
  · exact save_server_assigned planningSchema_paths (by simp [planningSchema]) hc hi
      (postPlanning_created h).1

/-- C5 (witness): the form's event body, which carries neither field. -/
theorem created_server_assigned_witness :
    ((eventBody "2024-03-01" (.finite 5000) (.str "L-2") []).lookup "createdAt" = none ∧
      (eventBody "2024-03-01" (.finite 5000) (.str "L-2") []).lookup "_id" = none ∧
      postEvents sampleBuiltins ⟨none⟩ sampleRuntime ⟨[], []⟩
          (eventBody "2024-03-01" (.finite 5000) (.str "L-2") []) =
        (⟨201, .document ⟨7, eventFields (.finite 5000) "L-2" 1700000000000⟩⟩,
         ⟨[⟨7, eventFields (.finite 5000) "L-2" 1700000000000⟩], []⟩)) ∧
    ((⟨7, eventFields (.finite 5000) "L-2" 1700000000000⟩ : Doc)._id = sampleRuntime.objectId ∧
      (⟨7, eventFields (.finite 5000) "L-2" 1700000000000⟩ : Doc).get "createdAt" =
        some (.date sampleRuntime.now)) :=
  ⟨⟨rfl, rfl, by decide⟩,
   created_server_assigned sampleBuiltins ⟨none⟩ sampleRuntime ⟨[], []⟩
     ⟨[⟨7, eventFields (.finite 5000) "L-2" 1700000000000⟩], []⟩
     (eventBody "2024-03-01" (.finite 5000) (.str "L-2") [])
     ⟨7, eventFields (.finite 5000) "L-2" 1700000000000⟩ rfl rfl (Or.inl (by decide))⟩

/-- C5 (counterexample): two event bodies that differ only in a supplied
`createdAt` and `_id`; with the same clock and the same generated id, the
second record takes both from the body (creation date 0, the supplied id). -/
theorem created_client_supplied :
    postEvents sampleBuiltins ⟨none⟩ sampleRuntime ⟨[], []⟩
        (eventBody "2024-03-01" (.finite 5000) (.str "L-2") []) =
      (⟨201, .document ⟨7, eventFields (.finite 5000) "L-2" 1700000000000⟩⟩,
       ⟨[⟨7, eventFields (.finite 5000) "L-2" 1700000000000⟩], []⟩) ∧
    postEvents sampleBuiltins ⟨none⟩ sampleRuntime ⟨[], []⟩
        (eventBody "2024-03-01" (.finite 5000) (.str "L-2")
          [("createdAt", .num (.finite 0)), ("_id", .str "507f1f77bcf86cd799439011")]) =
      (⟨201, .document ⟨24912482966938930280208240657, eventFields (.finite 5000) "L-2" 0⟩⟩,
       ⟨[⟨24912482966938930280208240657, eventFields (.finite 5000) "L-2" 0⟩], []⟩) := by
  constructor <;> decide

theorem pathError_of_valid {B : Builtins} {now : Int} {schema : Schema} {body : Body}
    (h : validate B now schema body = []) {p : PathSpec} (hp : p ∈ schema) :
    pathError p (construct B now p body) = none := by
  cases he : pathError p (construct B now p body) with
  | none => rfl
  | some e =>
    have := mem_validate hp he
    rw [h] at this
    cases this

theorem validate_eq_nil {B : Builtins} {now : Int} {schema : Schema} {body : Body}
    (h : ∀ p ∈ schema, pathError p (construct B now p body) = none) :
    validate B now schema body = [] := by
  apply List.eq_nil_iff_forall_not_mem.mpr
  intro e he
  obtain ⟨p, hp, hpe⟩ := List.mem_filterMap.mp he
  rw [h p hp] at hpe
  cases hpe

theorem castNumberCore_value {B : Builtins} {j : Json} {v : Value}
    (h : castNumberCore B j = .ok v) : v = .null ∨ ∃ x, v = .num x := by
  cases j with
  | null => simp [castNumberCore] at h; exact Or.inl h.symm
  | bool b => simp [castNumberCore] at h; exact Or.inr ⟨_, h.symm⟩
  | num x =>
    cases x <;> simp [castNumberCore] at h <;> exact Or.inr ⟨_, h.symm⟩
  | str t =>
    simp only [castNumberCore] at h
    split_ifs at h
    · cases h; exact Or.inl rfl
    · split at h
      · cases h
      · cases h; exact Or.inr ⟨_, rfl⟩
  | arr items => simp [castNumberCore] at h
  | obj members => simp [castNumberCore] at h

theorem castNumber_value {B : Builtins} {j : Json} {v : Value}
    (h : castNumber B j = .ok v) : v = .null ∨ ∃ x, v = .num x := by
  cases j with
  | obj members =>
    simp only [castNumber] at h
    split at h
    · exact castNumberCore_value h
    · cases h
  | null => exact castNumberCore_value (by simpa [castNumber] using h)
  | bool b => exact castNumberCore_value (by simpa [castNumber] using h)
  | num x => exact castNumberCore_value (by simpa [castNumber] using h)
  | str t => exact castNumberCore_value (by simpa [castNumber] using h)
  | arr items => exact castNumberCore_value (by simpa [castNumber] using h)

/-- C9 (amended): for every event that `POST /api/events` accepts and stores,
`crowd` is a number that is at least zero (finite or +Infinity); nothing makes
it an integer. -/
theorem persisted_crowd (B : Builtins) (penv : ProcessEnv) (rt : Runtime) (s s' : Store)
    (body : Body) (d : Doc)
    (h : postEvents B penv rt s body = (⟨201, .document d⟩, s')) :
    ∃ x, d.get "crowd" = some (.num x) ∧ x.ge 0 = true ∧ d ∈ s'.events := by
  obtain ⟨hsave, rfl⟩ := postEvents_created h
  obtain ⟨hv, _, _, _, hf⟩ := save_saved hsave
  have hp : (⟨"crowd", .Number, some "Crowd estimate is required", none, none,
      some (0, "Crowd cannot be negative"), none⟩ : PathSpec) ∈ eventSchema := by
    simp [eventSchema]
  have herr := pathError_of_valid hv hp
  have hl := lookup_fieldsOf B rt.now body eventSchema
    eventSchema_paths _ hp
  simp only [construct] at herr hl
  cases hb : body.lookup "crowd" with
  | none => simp [hb, pathError, missing] at herr
  | some j =>
    simp only [hb, cast] at herr hl
    cases hc : castNumber B j with
    | error => simp [hc, pathError] at herr
    | ok v =>
      rcases castNumber_value hc with rfl | ⟨x, rfl⟩
      · simp [hc, pathError, missing] at herr
      · simp only [hc] at hl
        simp only [hc, pathError, missing, checkValue, matchError, enumError, minError,
          minFails] at herr
        refine ⟨x, ?_, ?_, by simp⟩
        · rw [Doc.get, hf]
          exact lookup_append_some _ _ hl
        · cases hx : x.ge 0 with
          | true => rfl
          | false => simp [hx] at herr

/-- C9 (witness): the form's event body, stored with crowd 5000. -/
theorem persisted_crowd_witness :
    postEvents sampleBuiltins ⟨none⟩ sampleRuntime ⟨[], []⟩
        (eventBody "2024-03-01" (.finite 5000) (.str "L-2") []) =
      (⟨201, .document ⟨7, eventFields (.finite 5000) "L-2" 1700000000000⟩⟩,
       ⟨[⟨7, eventFields (.finite 5000) "L-2" 1700000000000⟩], []⟩) ∧
    ∃ x, (⟨7, eventFields (.finite 5000) "L-2" 1700000000000⟩ : Doc).get "crowd"
        = some (.num x) ∧ x.ge 0 = true ∧
      (⟨7, eventFields (.finite 5000) "L-2" 1700000000000⟩ : Doc) ∈
        (⟨[⟨7, eventFields (.finite 5000) "L-2" 1700000000000⟩], []⟩ : Store).events :=
  ⟨by decide,
   persisted_crowd sampleBuiltins ⟨none⟩ sampleRuntime ⟨[], []⟩
     ⟨[⟨7, eventFields (.finite 5000) "L-2" 1700000000000⟩], []⟩
     (eventBody "2024-03-01" (.finite 5000) (.str "L-2") [])
     ⟨7, eventFields (.finite 5000) "L-2" 1700000000000⟩ (by decide)⟩

/-- C9 (counterexample): an event body with crowd 2.5 is accepted and stored with
crowd 2.5, which is not an integer. -/
theorem fractional_crowd_accepted :
    postEvents sampleBuiltins ⟨none⟩ sampleRuntime ⟨[], []⟩
        (eventBody "2024-03-01" (.finite twoAndHalf) (.str "L-2") []) =
      (⟨201, .document ⟨7, eventFields (.finite twoAndHalf) "L-2" 1700000000000⟩⟩,
       ⟨[⟨7, eventFields (.finite twoAndHalf) "L-2" 1700000000000⟩], []⟩) ∧
    (⟨7, eventFields (.finite twoAndHalf) "L-2" 1700000000000⟩ : Doc).get "crowd" =
      some (.num (.finite twoAndHalf)) ∧
    (JsNumber.finite twoAndHalf).isNonNegInteger = false ∧
    2 * twoAndHalf = 5 := by
  refine ⟨by decide, by decide, by decide, ?_⟩
  have h : twoAndHalf = ((5 : ℤ) : ℚ) / ((2 : ℕ) : ℚ) := (Rat.num_div_den twoAndHalf).symm
  rw [h]
  norm_num

/-! ## Failures that are not validation errors -/

/-- C6 (evaluation): with NODE_ENV set to 'production' and a store that refuses the
connection, the event routes answer 500 with the error's message in the body;
the error middleware, for the same error, leaves the message out. -/
theorem route_failure_exposes_message :
    getEvents ⟨some "production"⟩
        ⟨1700000000000, 7, some "connect ECONNREFUSED 127.0.0.1:27017"⟩ ⟨[], []⟩ =
      ⟨500, .failure "Failed to fetch events"
        (some (.driver "connect ECONNREFUSED 127.0.0.1:27017"))⟩ ∧
    postEvents sampleBuiltins ⟨some "production"⟩
        ⟨1700000000000, 7, some "connect ECONNREFUSED 127.0.0.1:27017"⟩ ⟨[], []⟩
        (eventBody "2024-03-01" (.finite 5000) (.str "L-2") []) =
      (⟨500, .failure "Failed to create event"
        (some (.driver "connect ECONNREFUSED 127.0.0.1:27017"))⟩, ⟨[], []⟩) ∧
    deleteEvent sampleBuiltins ⟨some "production"⟩
        ⟨1700000000000, 7, some "connect ECONNREFUSED 127.0.0.1:27017"⟩ ⟨[], []⟩
        "000000000000000000000007" =
      (⟨500, .failure "Failed to delete event"
        (some (.driver "connect ECONNREFUSED 127.0.0.1:27017"))⟩, ⟨[], []⟩) ∧
    errorHandler ⟨some "production"⟩ (.driver "connect ECONNREFUSED 127.0.0.1:27017") =
      ⟨500, .failure "Internal server error" none⟩ := by
  refine ⟨by decide, by decide, by decide, by decide⟩

/-! ## Plans -/

theorem save_ok {B : Builtins} {schema : Schema} {rt : Runtime} {coll : List Doc} {body : Body}
    {i : DocId} (hv : validate B rt.now (model schema) body = [])
    (hid : idOutcome B rt body = .id i)
    (hstore : rt.storeError = none) (hfresh : i ∉ coll.map Doc._id) :
    save B schema rt coll body = .saved ⟨i, storedFields B rt.now schema body⟩ := by
  unfold save
  simp only [idError, hid, hv, List.append_nil, hstore]
  rw [if_neg hfresh]

theorem requiredString_ok {B : Builtins} {now : Int} {body : Body} (k msg : String)
    (h : nonEmptyString B (body.lookup k) = true) :
    pathError ⟨k, .String, some msg, none, none, none, none⟩
      (construct B now ⟨k, .String, some msg, none, none, none, none⟩ body) = none := by
  simp only [construct]
  cases hb : body.lookup k with
  | none => simp [nonEmptyString, readString, hb] at h
  | some j =>
    simp only [cast]
    cases hc : castString B j with
    | error => simp [nonEmptyString, readString, hb, hc] at h
    | ok v =>
      rcases castString_value hc with rfl | ⟨t, rfl⟩
      · simp [nonEmptyString, readString, hb, hc] at h
      · have ht : t ≠ "" := by simpa [nonEmptyString, readString, hb, hc] using h
        simp [pathError, missing, ht, checkValue, matchError, enumError, minError]

theorem plain_ok {B : Builtins} {now : Int} {body : Body} (k : String) (type : SchemaType)
    (h : castable B type (body.lookup k) = true) :
    pathError (plain k type) (construct B now (plain k type) body) = none := by
  simp only [construct, plain]
  cases hb : body.lookup k with
  | none => simp [pathError]
  | some j =>
    cases hc : cast B type j with
    | error => simp [castable, hb, hc] at h
    | ok v => simp [pathError, checkValue, matchError, enumError, minError, hc]

theorem staffCount_ok {B : Builtins} {now : Int} {body : Body} (k msg : String)
    (h : validCount B (body.lookup k) = true) :
    pathError ⟨k, .Number, none, none, none, some (0, msg), some (.value (.num (.finite 0)))⟩
      (construct B now
        ⟨k, .Number, none, none, none, some (0, msg), some (.value (.num (.finite 0)))⟩ body)
      = none := by
  simp only [construct]
  cases hb : body.lookup k with
  | none => simp [pathError, checkValue, matchError, enumError, minError, minFails, JsNumber.ge]
  | some j =>
    simp only [cast]
    cases hc : castNumber B j with
    | error => simp [validCount, hb, hc] at h
    | ok v =>
      rcases castNumber_value hc with rfl | ⟨x, rfl⟩
      · simp [pathError, checkValue, matchError, enumError, minError, minFails]
      · have hx : x.ge 0 = true := by simpa [validCount, hb, hc] using h
        simp [pathError, checkValue, matchError, enumError, minError, minFails, hx]

theorem createdAt_ok {B : Builtins} {now : Int} {body : Body}
    (h : castable B .Date (body.lookup "createdAt") = true) :
    pathError ⟨"createdAt", .Date, none, none, none, none, some .now⟩
      (construct B now ⟨"createdAt", .Date, none, none, none, none, some .now⟩ body)
      = none := by
  simp only [construct]
  cases hb : body.lookup "createdAt" with
  | none => simp [pathError, checkValue, matchError, enumError, minError]
  | some j =>
    cases hc : cast B .Date j with
    | error => simp [castable, hb, hc] at h
    | ok v => simp [pathError, checkValue, matchError, enumError, minError, hc]

/-- C7 (amended): for every plan body whose `expectedCrowd` is a number: if the
number is negative, `POST /api/planning` answers 400 with 'Expected crowd cannot
be negative' among the details and stores nothing; if it is 0, `dateKey` and
`stationName` are read as non-empty strings, the staff counts are absent, null
or numbers that are at least zero, no other path of the model (the train fields,
`createdAt`, the version key `__v`) fails its cast, and the store takes the
insert (it answers, the id is unused), the answer is 201 and the plan is stored
with expected crowd 0. -/
theorem postPlanning_expectedCrowd (B : Builtins) (penv : ProcessEnv) (rt : Runtime) (s : Store)
    (body : Body) (x : JsNumber) (hcrowd : body.lookup "expectedCrowd" = some (.num x)) :
    (x.negative = true →
      ∃ details, postPlanning B penv rt s body =
          (⟨400, .validationFailed "Validation failed" details⟩, s) ∧
        Detail.message "Expected crowd cannot be negative" ∈ details) ∧
    (x = .finite 0 →
      nonEmptyString B (body.lookup "dateKey") = true →
      nonEmptyString B (body.lookup "stationName") = true →
      (∀ k ∈ ["grpStaff", "rpfStaff", "commercialStaff"], validCount B (body.lookup k) = true) →
      (∀ k ∈ ["trainNumber", "trainType", "trainRoute"],
        castable B .String (body.lookup k) = true) →
      castable B .Date (body.lookup "createdAt") = true →
      castable B .Number (body.lookup "__v") = true →
      ∀ i, idOutcome B rt body = .id i → i ∉ s.planning.map Doc._id →
      rt.storeError = none →
      ∃ d, postPlanning B penv rt s body =
          (⟨201, .document d⟩, ⟨s.events, s.planning ++ [d]⟩) ∧
        d._id = i ∧ d.get "expectedCrowd" = some (.num (.finite 0))) := by
  have hp : (⟨"expectedCrowd", .Number, some "Expected crowd is required", none, none,
      some (0, "Expected crowd cannot be negative"), none⟩ : PathSpec) ∈ planningSchema := by
    simp [planningSchema]
  constructor
  · intro hneg
    have he : pathError ⟨"expectedCrowd", .Number, some "Expected crowd is required", none, none,
        some (0, "Expected crowd cannot be negative"), none⟩
        (construct B rt.now ⟨"expectedCrowd", .Number, some "Expected crowd is required", none,
          none, some (0, "Expected crowd cannot be negative"), none⟩ body) =
        some (.message "Expected crowd cannot be negative") := by
      cases x with
      | finite q =>
        have hq : q < 0 := by simpa [JsNumber.negative] using hneg
        simp [construct, hcrowd, cast, castNumber, castNumberCore, pathError, missing,
          checkValue, matchError, enumError, minError, minFails, JsNumber.ge, hq]
      | negInf =>
        simp [construct, hcrowd, cast, castNumber, castNumberCore, pathError, missing,
          checkValue, matchError, enumError, minError, minFails, JsNumber.ge]
      | posInf => simp [JsNumber.negative] at hneg
      | nan => simp [JsNumber.negative] at hneg
    exact postPlanning_of_invalid penv s (mem_validate hp he)
  · intro hx hdate hstation hstaff hrest hcreated hversion i hid hfresh hstore
    subst hx
    have hv : validate B rt.now planningSchema body = [] := by
      apply validate_eq_nil
      intro p hp
      simp only [planningSchema, List.mem_cons, List.mem_singleton, List.not_mem_nil,
        or_false] at hp
      rcases hp with rfl | rfl | rfl | rfl | rfl | rfl | rfl | rfl | rfl | rfl
      · exact requiredString_ok _ _ hdate
      · exact requiredString_ok _ _ hstation
      · simp [construct, hcrowd, cast, castNumber, castNumberCore, pathError, missing,
          checkValue, matchError, enumError, minError, minFails, JsNumber.ge]
      · exact staffCount_ok _ _ (hstaff _ (by simp))
      · exact staffCount_ok _ _ (hstaff _ (by simp))
      · exact staffCount_ok _ _ (hstaff _ (by simp))
      · exact plain_ok _ _ (hrest _ (by simp))
      · exact plain_ok _ _ (hrest _ (by simp))
      · exact plain_ok _ _ (hrest _ (by simp))
      · exact createdAt_ok hcreated
    have hk : pathError versionKey (construct B rt.now versionKey body) = none :=
      plain_ok "__v" .Number hversion
    have hv' : validate B rt.now (model planningSchema) body = [] := by
      rw [validate_model, hv]
      simp [validate, hk]
    have hsave := save_ok (B := B) hv' hid hstore (by exact hfresh)
    refine ⟨⟨i, storedFields B rt.now planningSchema body⟩, by simp [postPlanning, hsave],
      rfl, ?_⟩
    have hl := lookup_fieldsOf B rt.now body planningSchema
      planningSchema_paths _ hp
    simp only [construct, hcrowd, cast, castNumber, castNumberCore] at hl
    exact lookup_append_some _ _ hl

/-- C7 (witness): the form's plan body with expected crowd -1 and with expected
crowd 0. -/
theorem postPlanning_expectedCrowd_witness :
    ((planBody "2024-03-01" (.finite (-1))).lookup "expectedCrowd" = some (.num (.finite (-1))) ∧
      ∃ details, postPlanning sampleBuiltins ⟨none⟩ sampleRuntime ⟨[], []⟩
            (planBody "2024-03-01" (.finite (-1))) =
          (⟨400, .validationFailed "Validation failed" details⟩, ⟨[], []⟩) ∧
        Detail.message "Expected crowd cannot be negative" ∈ details) ∧
    ((planBody "2024-03-01" (.finite 0)).lookup "expectedCrowd" = some (.num (.finite 0)) ∧
      ∃ d, postPlanning sampleBuiltins ⟨none⟩ sampleRuntime ⟨[], []⟩
            (planBody "2024-03-01" (.finite 0)) =
          (⟨201, .document d⟩, ⟨[], [] ++ [d]⟩) ∧
        d._id = 7 ∧ d.get "expectedCrowd" = some (.num (.finite 0))) :=
  ⟨⟨rfl, (postPlanning_expectedCrowd sampleBuiltins ⟨none⟩ sampleRuntime ⟨[], []⟩
      (planBody "2024-03-01" (.finite (-1))) (.finite (-1)) rfl).1 (by simp [JsNumber.negative])⟩,
   ⟨rfl, (postPlanning_expectedCrowd sampleBuiltins ⟨none⟩ sampleRuntime ⟨[], []⟩
      (planBody "2024-03-01" (.finite 0)) (.finite 0) rfl).2 rfl (by decide) (by decide)
      (by decide) (by decide) (by decide) (by decide) 7 rfl (by decide) rfl⟩⟩

/-- C7 (counterexample): a plan body with a present but empty `dateKey`, a non-empty
`stationName`, valid staff counts and expected crowd 0 is refused with 400. -/
theorem empty_dateKey_plan_refused :
    postPlanning sampleBuiltins ⟨none⟩ sampleRuntime ⟨[], []⟩ (planBody "" (.finite 0)) =
      (⟨400, .validationFailed "Validation failed" [.message "Date key is required"]⟩,
       ⟨[], []⟩) := by
  decide

/-! ## Page statistics -/

theorem strictEq_iff (v : Option Json) (t : String) :
    strictEq v t = true ↔ v = some (.str t) := by
  cases v with
  | none => simp [strictEq]
  | some j => cases j <;> simp [strictEq]

theorem strictEq_exclusive (v : Option Json) {a b : String} (hab : a ≠ b)
    (h : strictEq v a = true) : strictEq v b = false := by
  rw [strictEq_iff] at h
  subst h
  simpa [strictEq] using hab

theorem count_three {α : Type} (a b c : α → Bool)
    (hab : ∀ x, a x = true → b x = false) (hac : ∀ x, a x = true → c x = false)
    (hbc : ∀ x, b x = true → c x = false) (l : List α) :
    (l.filter a).length + (l.filter b).length + (l.filter c).length ≤ l.length ∧
    ((l.filter a).length + (l.filter b).length + (l.filter c).length = l.length ↔
      ∀ x ∈ l, a x = true ∨ b x = true ∨ c x = true) := by
  induction l with
  | nil => simp
  | cons x xs ih =>
    obtain ⟨hle, hiff⟩ := ih
    have h1 := hab x
    have h2 := hac x
    have h3 := hbc x
    simp only [List.filter_cons, List.length_cons, List.forall_mem_cons]
    cases ha : a x <;> cases hb : b x <;> cases hc : c x <;>
      simp only [ha, hb, hc, Bool.false_eq_true, if_false, if_true, List.length_cons,
        false_or, true_or, or_true, or_false, true_and, false_and] at h1 h2 h3 ⊢ <;>
      first
        | exact absurd (h1 trivial) (by decide)
        | exact absurd (h2 trivial) (by decide)
        | exact absurd (h3 trivial) (by decide)
        | exact ⟨by omega, by omega⟩
        | exact ⟨by omega, ⟨fun h => by omega, False.elim⟩⟩
        | exact ⟨by omega, by rw [← hiff]; omega⟩

theorem displayReports_keeps (B : Builtins) (p : Page) :
    (displayReports B p).allEvents = p.allEvents ∧ (displayReports B p).total = p.total ∧
    (displayReports B p).l1 = p.l1 ∧ (displayReports B p).l2 = p.l2 ∧
    (displayReports B p).l3 = p.l3 := by
  by_cases h : p.allEvents.length = 0 <;> simp [displayReports, h]

/-- C10: for every event list, `updateStats` writes the length of the list as the
total and, as l1, l2, l3, the numbers of entries whose level is exactly 'L-1',
'L-2', 'L-3'; their sum is at most the total, equal to it exactly when every
entry has one of the three levels; and `allEvents` is left as it was. -/
theorem updateStats_counts (B : Builtins) (p : Page) :
    ∃ l1 l2 l3,
      (updateStats B p).total = some p.allEvents.length ∧
      (updateStats B p).l1 = some l1 ∧ (updateStats B p).l2 = some l2 ∧
      (updateStats B p).l3 = some l3 ∧
      l1 = p.allEvents.countP (fun e => strictEq (e.lookup "level") "L-1") ∧
      l2 = p.allEvents.countP (fun e => strictEq (e.lookup "level") "L-2") ∧
      l3 = p.allEvents.countP (fun e => strictEq (e.lookup "level") "L-3") ∧
      l1 + l2 + l3 ≤ p.allEvents.length ∧
      (l1 + l2 + l3 = p.allEvents.length ↔
        ∀ e ∈ p.allEvents, e.lookup "level" = some (.str "L-1") ∨
          e.lookup "level" = some (.str "L-2") ∨ e.lookup "level" = some (.str "L-3")) ∧
      (updateStats B p).allEvents = p.allEvents := by
  have hc := count_three
    (fun e : EventEntry => strictEq (e.lookup "level") "L-1")
    (fun e : EventEntry => strictEq (e.lookup "level") "L-2")
    (fun e : EventEntry => strictEq (e.lookup "level") "L-3")
    (fun e => strictEq_exclusive _ (by decide))
    (fun e => strictEq_exclusive _ (by decide))
    (fun e => strictEq_exclusive _ (by decide)) p.allEvents
  refine ⟨(p.allEvents.filter (fun e => strictEq (e.lookup "level") "L-1")).length,
    (p.allEvents.filter (fun e => strictEq (e.lookup "level") "L-2")).length,
    (p.allEvents.filter (fun e => strictEq (e.lookup "level") "L-3")).length,
    ?_, ?_, ?_, ?_, (List.countP_eq_length_filter _ _).symm,
    (List.countP_eq_length_filter _ _).symm, (List.countP_eq_length_filter _ _).symm,
    hc.1, ?_, ?_⟩
  · exact (displayReports_keeps B _).2.1
  · exact (displayReports_keeps B _).2.2.1
  · exact (displayReports_keeps B _).2.2.2.1
  · exact (displayReports_keeps B _).2.2.2.2
  · rw [hc.2]
    simp only [strictEq_iff]
  · exact (displayReports_keeps B _).1

end Railway
